import Mathlib

/-!
Verification of the live-session audio pipeline and the recommendation
logic of `src/components/VideoPlayer.tsx`, as a shallow embedding.

Modelling conventions:

* JavaScript numbers reaching the audio codec are modelled by `JSNum`:
  either a finite value, represented exactly as a rational (every finite
  IEEE double is a rational, and multiplying a `Float32` sample by the
  power of two 32768 is exact in double precision, so no rounding is
  lost in this representation), or `NaN` / an infinity.
* The coercion performed by a store into an `Int16Array` (ECMAScript
  `ToInt16`) is truncation toward zero followed by reduction modulo
  2^16 into the signed range; `NaN` and infinities map to 0.
* `btoa` / `atob` are modelled as RFC 4648 base64 over byte lists, with
  `=` padding, which is their behaviour on binary strings of char codes
  below 256 (the only strings the component feeds them).
* Fallible operations return `Except JSError _`; a JavaScript
  `try { ... } catch` that swallows its error keeps whatever state was
  mutated before the throw.
-/

inductive JSError where
  | typeError
  | rangeError
deriving DecidableEq

/-- A JavaScript number as seen by the audio codec. -/
inductive JSNum where
  | nan
  | posInf
  | negInf
  | fin (q : ℚ)
deriving DecidableEq

/-- Truncation toward zero, as ECMAScript `ToIntegerOrInfinity` does on a
finite value. -/
def jsTrunc (q : ℚ) : ℤ := if 0 ≤ q then ⌊q⌋ else ⌈q⌉

/-- Reduction of an integer modulo 2^16 into the signed 16-bit range, the
final step of ECMAScript `ToInt16`. -/
def toInt16 (n : ℤ) : ℤ :=
  if 32768 ≤ n % 65536 then n % 65536 - 65536 else n % 65536

/-- ECMAScript `ToInt16` on a full JavaScript number: `NaN` and the two
infinities map to 0, finite values are truncated toward zero and wrapped
modulo 2^16 (no saturation). -/
def jsToInt16 : JSNum → ℤ
  | .nan => 0
  | .posInf => 0
  | .negInf => 0
  | .fin q => toInt16 (jsTrunc q)

/-- The multiplication `data[i] * 32768` of `createBlob`
(src/components/VideoPlayer.tsx line 31): exact on finite values,
preserves `NaN` and infinities. -/
def mul32768 : JSNum → JSNum
  | .nan => .nan
  | .posInf => .posInf
  | .negInf => .negInf
  | .fin q => .fin (q * 32768)

/-- The per-sample conversion performed by `int16[i] = data[i] * 32768`
(line 31): multiply by 32768, then the `Int16Array` store coerces with
`ToInt16`. -/
def sampleToInt16 (x : JSNum) : ℤ := jsToInt16 (mul32768 x)

/-- Little-endian serialization of one 16-bit sample into two bytes, as
viewing `int16.buffer` through `new Uint8Array` does (line 33). -/
def int16ToBytes (v : ℤ) : List ℕ :=
  [(v % 65536).toNat % 256, (v % 65536).toNat / 256]

/-- Reinterpretation of a little-endian byte sequence as signed 16-bit
samples, as `new Int16Array(data.buffer)` does (line 57).  A trailing odd
byte cannot occur at the call sites: odd lengths are rejected before this
runs (an odd-length buffer makes the `Int16Array` constructor throw). -/
def bytesToInt16 : List ℕ → List ℤ
  | lo :: hi :: rest =>
      (if 32768 ≤ lo + 256 * hi then ((lo + 256 * hi : ℕ) : ℤ) - 65536
       else ((lo + 256 * hi : ℕ) : ℤ)) :: bytesToInt16 rest
  | _ => []

/-- The base64 alphabet used by `btoa` / `atob`. -/
def b64Alphabet : List Char :=
  "ABCDEFGHIJKLMNOPQRSTUVWXYZabcdefghijklmnopqrstuvwxyz0123456789+/".data

def sextetToChar (n : ℕ) : Char := b64Alphabet.getD n 'A'

def charToSextet (c : Char) : ℕ := b64Alphabet.indexOf c

/-- `btoa` on a binary string: RFC 4648 base64 with `=` padding, grouping
the bytes in threes. -/
def btoaBytes : List ℕ → List Char
  | [] => []
  | [b0] =>
      [sextetToChar (b0 / 4), sextetToChar (b0 % 4 * 16), '=', '=']
  | [b0, b1] =>
      [sextetToChar (b0 / 4), sextetToChar (b0 % 4 * 16 + b1 / 16),
       sextetToChar (b1 % 16 * 4), '=']
  | b0 :: b1 :: b2 :: rest =>
      sextetToChar (b0 / 4) :: sextetToChar (b0 % 4 * 16 + b1 / 16) ::
      sextetToChar (b1 % 16 * 4 + b2 / 64) :: sextetToChar (b2 % 64) ::
      btoaBytes rest

/-- Recombination of base64 sextets into bytes, the core of `atob`:
groups of four sextets yield three bytes, a final group of three or two
sextets (produced by padding) yields two bytes or one. -/
def sextetsToBytes : List ℕ → List ℕ
  | s0 :: s1 :: s2 :: s3 :: rest =>
      (s0 * 4 + s1 / 16) :: (s1 % 16 * 16 + s2 / 4) :: (s2 % 4 * 64 + s3) ::
      sextetsToBytes rest
  | [s0, s1, s2] => [s0 * 4 + s1 / 16, s1 % 16 * 16 + s2 / 4]
  | [s0, s1] => [s0 * 4 + s1 / 16]
  | _ => []

/-- `atob` on the well-formed strings `btoa` produces: drop the `=`
padding, look every remaining character up in the alphabet, and
recombine the sextets into bytes. -/
def atobChars (cs : List Char) : List ℕ :=
  sextetsToBytes ((cs.filter (fun c => c ≠ '=')).map charToSextet)

/-- The payload record returned by `createBlob` (lines 35-38). -/
structure EncodedBlob where
  data : List Char
  mimeType : String
deriving DecidableEq

/-- `createBlob` (lines 27-39): coerce each float sample to a 16-bit
integer by `int16[i] = data[i] * 32768`, serialize little-endian, then
base64-encode the byte string with `btoa`. -/
def createBlob (data : List JSNum) : EncodedBlob :=
  { data := btoaBytes (((data.map sampleToInt16).map int16ToBytes).flatten),
    mimeType := "audio/pcm;rate=16000" }

/-- `decode` (lines 41-49): `atob` the base64 text and read the char
codes out as bytes. -/
def decode (base64 : List Char) : List ℕ := atobChars base64

/-- A decoded audio buffer: what `ctx.createBuffer` plus the channel
writes of `decodeAudioData` produce.  `ctx.createBuffer` itself is a Web
API collaborator and is modelled as total in its arguments. -/
structure AudioBuffer where
  numChannels : ℕ
  frameCount : ℕ
  sampleRate : ℕ
  channels : List (List ℚ)
deriving DecidableEq

/-- `decodeAudioData` (lines 51-68): reinterpret the bytes as interleaved
signed 16-bit integers (`new Int16Array(data.buffer)` throws a
`RangeError` on an odd byte length), de-interleave per channel, and
convert each sample to floating point by dividing by 32768. -/
def decodeAudioData (data : List ℕ) (sampleRate numChannels : ℕ) :
    Except JSError AudioBuffer :=
  if data.length % 2 ≠ 0 then .error .rangeError
  else
    .ok { numChannels := numChannels,
          frameCount := (bytesToInt16 data).length / numChannels,
          sampleRate := sampleRate,
          channels := (List.range numChannels).map (fun ch =>
            (List.range ((bytesToInt16 data).length / numChannels)).map (fun i =>
              (((bytesToInt16 data).getD (i * numChannels + ch) 0 : ℤ) : ℚ) / 32768)) }

-- ### Codec lemmas

theorem toInt16_of_range (k : ℤ) (h1 : -32768 ≤ k) (h2 : k ≤ 32767) :
    toInt16 k = k := by
  unfold toInt16; split_ifs <;> omega

theorem sampleToInt16_range (x : JSNum) :
    -32768 ≤ sampleToInt16 x ∧ sampleToInt16 x ≤ 32767 := by
  cases x <;> simp [sampleToInt16, jsToInt16, mul32768, toInt16] <;> split_ifs <;> omega

theorem sampleToInt16_quantized (k : ℤ) (h1 : -32768 ≤ k) (h2 : k ≤ 32767) :
    sampleToInt16 (JSNum.fin ((k : ℚ) / 32768)) = k := by
  have hq : ((k : ℚ) / 32768) * 32768 = (k : ℚ) := by
    rw [div_mul_cancel₀]; norm_num
  simp only [sampleToInt16, mul32768, jsToInt16, hq, jsTrunc]
  split_ifs <;>
    simp only [Int.floor_intCast, Int.ceil_intCast] <;>
    exact toInt16_of_range k h1 h2

theorem bytesToInt16_int16ToBytes (v : ℤ) (h1 : -32768 ≤ v) (h2 : v ≤ 32767)
    (rest : List ℕ) :
    bytesToInt16 (int16ToBytes v ++ rest) = v :: bytesToInt16 rest := by
  simp only [int16ToBytes, List.cons_append, List.nil_append, bytesToInt16,
    List.cons.injEq]
  refine ⟨?_, rfl⟩
  split_ifs <;> omega

theorem int16ToBytes_lt (v : ℤ) : ∀ b ∈ int16ToBytes v, b < 256 := by
  intro b hb
  simp only [int16ToBytes, List.mem_cons, List.not_mem_nil, or_false] at hb
  have : (v % 65536).toNat < 65536 := by omega
  rcases hb with rfl | rfl <;> omega

theorem bytesToInt16_flatten (l : List ℤ)
    (h : ∀ v ∈ l, -32768 ≤ v ∧ v ≤ 32767) :
    bytesToInt16 ((l.map int16ToBytes).flatten) = l := by
  induction l with
  | nil => rfl
  | cons v t ih =>
      simp only [List.map_cons, List.flatten_cons]
      rw [bytesToInt16_int16ToBytes v (h v (by simp)).1 (h v (by simp)).2,
        ih (fun u hu => h u (by simp [hu]))]

theorem flatten_int16ToBytes_length (l : List ℤ) :
    ((l.map int16ToBytes).flatten).length = 2 * l.length := by
  induction l with
  | nil => rfl
  | cons v t ih =>
      simp only [List.map_cons, List.flatten_cons, List.length_append,
        List.length_cons, ih, int16ToBytes]
      simp; omega

-- ### Base64 round trip

theorem charToSextet_sextetToChar : ∀ n, n < 64 → charToSextet (sextetToChar n) = n := by
  decide

theorem sextetToChar_ne_pad : ∀ n, n < 64 → sextetToChar n ≠ '=' := by
  decide

theorem filter_pad_cons (n : ℕ) (hn : n < 64) (l : List Char) :
    (sextetToChar n :: l).filter (fun c => c ≠ '=') =
      sextetToChar n :: l.filter (fun c => c ≠ '=') := by
  rw [List.filter_cons_of_pos]
  exact decide_eq_true (sextetToChar_ne_pad n hn)

theorem filter_pad_drop (l : List Char) :
    ('=' :: l).filter (fun c => c ≠ '=') = l.filter (fun c => c ≠ '=') := by
  rw [List.filter_cons_of_neg]
  simp

theorem atob_btoa : ∀ bs : List ℕ, (∀ b ∈ bs, b < 256) →
    atobChars (btoaBytes bs) = bs
  | [], _ => rfl
  | [b0], h => by
      have hb0 : b0 < 256 := h b0 (by simp)
      have h1 : b0 / 4 < 64 := by omega
      have h2 : b0 % 4 * 16 < 64 := by omega
      unfold atobChars btoaBytes
      rw [filter_pad_cons _ h1, filter_pad_cons _ h2, filter_pad_drop,
        filter_pad_drop, List.filter_nil, List.map_cons, List.map_cons,
        List.map_nil, charToSextet_sextetToChar _ h1,
        charToSextet_sextetToChar _ h2]
      unfold sextetsToBytes
      simp only [List.cons.injEq, and_true]
      omega
  | [b0, b1], h => by
      have hb0 : b0 < 256 := h b0 (by simp)
      have hb1 : b1 < 256 := h b1 (by simp)
      have h1 : b0 / 4 < 64 := by omega
      have h2 : b0 % 4 * 16 + b1 / 16 < 64 := by omega
      have h3 : b1 % 16 * 4 < 64 := by omega
      unfold atobChars btoaBytes
      rw [filter_pad_cons _ h1, filter_pad_cons _ h2, filter_pad_cons _ h3,
        filter_pad_drop, List.filter_nil, List.map_cons, List.map_cons,
        List.map_cons, List.map_nil, charToSextet_sextetToChar _ h1,
        charToSextet_sextetToChar _ h2, charToSextet_sextetToChar _ h3]
      unfold sextetsToBytes
      simp only [List.cons.injEq, and_true]
      omega
  | b0 :: b1 :: b2 :: rest, h => by
      have hb0 : b0 < 256 := h b0 (by simp)
      have hb1 : b1 < 256 := h b1 (by simp)
      have hb2 : b2 < 256 := h b2 (by simp)
      have h1 : b0 / 4 < 64 := by omega
      have h2 : b0 % 4 * 16 + b1 / 16 < 64 := by omega
      have h3 : b1 % 16 * 4 + b2 / 64 < 64 := by omega
      have h4 : b2 % 64 < 64 := by omega
      have hrec := atob_btoa rest (fun b hb => h b (by simp [hb]))
      unfold atobChars at hrec ⊢
      rw [show btoaBytes (b0 :: b1 :: b2 :: rest) =
            sextetToChar (b0 / 4) :: sextetToChar (b0 % 4 * 16 + b1 / 16) ::
            sextetToChar (b1 % 16 * 4 + b2 / 64) :: sextetToChar (b2 % 64) ::
            btoaBytes rest from rfl,
        filter_pad_cons _ h1, filter_pad_cons _ h2, filter_pad_cons _ h3,
        filter_pad_cons _ h4, List.map_cons, List.map_cons, List.map_cons,
        List.map_cons, charToSextet_sextetToChar _ h1,
        charToSextet_sextetToChar _ h2, charToSextet_sextetToChar _ h3,
        charToSextet_sextetToChar _ h4]
      rw [show sextetsToBytes ((b0 / 4) :: (b0 % 4 * 16 + b1 / 16) ::
            (b1 % 16 * 4 + b2 / 64) :: (b2 % 64) ::
            ((btoaBytes rest).filter (fun c => c ≠ '=')).map charToSextet) =
            (b0 / 4 * 4 + (b0 % 4 * 16 + b1 / 16) / 16) ::
            ((b0 % 4 * 16 + b1 / 16) % 16 * 16 + (b1 % 16 * 4 + b2 / 64) / 4) ::
            ((b1 % 16 * 4 + b2 / 64) % 4 * 64 + b2 % 64) ::
            sextetsToBytes (((btoaBytes rest).filter (fun c => c ≠ '=')).map charToSextet)
          from rfl, hrec]
      have e0 : b0 / 4 * 4 + (b0 % 4 * 16 + b1 / 16) / 16 = b0 := by omega
      have e1 : (b0 % 4 * 16 + b1 / 16) % 16 * 16 + (b1 % 16 * 4 + b2 / 64) / 4 = b1 := by
        omega
      have e2 : (b1 % 16 * 4 + b2 / 64) % 4 * 64 + b2 % 64 = b2 := by omega
      rw [e0, e1, e2]

theorem flatten_int16ToBytes_lt (l : List ℤ) :
    ∀ b ∈ (l.map int16ToBytes).flatten, b < 256 := by
  intro b hb
  rw [List.mem_flatten] at hb
  obtain ⟨bs, hbs, hbbs⟩ := hb
  rw [List.mem_map] at hbs
  obtain ⟨v, _, rfl⟩ := hbs
  exact int16ToBytes_lt v b hbbs

theorem range_map_getD_div (l : List ℤ) :
    (List.range l.length).map (fun i => ((l.getD i 0 : ℤ) : ℚ) / 32768) =
      l.map (fun v : ℤ => ((v : ℚ) / 32768)) := by
  induction l with
  | nil => rfl
  | cons a t ih =>
      rw [List.length_cons, List.range_succ_eq_map, List.map_cons, List.map_map]
      simp only [Function.comp_def, List.getD_cons_zero, List.getD_cons_succ]
      rw [ih, List.map_cons]

/-- Claim C1: codec round trip.  For every finite sequence of samples in
[-1, 1] already quantized to 16-bit precision — i.e. each sample equals
`k / 32768` for a signed 16-bit integer `k` — running `createBlob`, then
`decode` on the resulting text payload, then `decodeAudioData` with one
channel and any sample rate yields a single-channel buffer whose sample
values equal the original sequence exactly. -/
theorem codec_roundtrip (ks : List ℤ)
    (hks : ∀ k ∈ ks, -32768 ≤ k ∧ k ≤ 32767) (rate : ℕ) :
    decodeAudioData
        (decode (createBlob (ks.map (fun k : ℤ => JSNum.fin ((k : ℚ) / 32768)))).data)
        rate 1 =
      .ok { numChannels := 1, frameCount := ks.length, sampleRate := rate,
            channels := [ks.map (fun k : ℤ => ((k : ℚ) / 32768))] } := by
  have hmap : (ks.map (fun k : ℤ => JSNum.fin ((k : ℚ) / 32768))).map sampleToInt16 = ks := by
    rw [List.map_map]
    have h : ∀ k ∈ ks, (sampleToInt16 ∘ fun k : ℤ => JSNum.fin ((k : ℚ) / 32768)) k = id k := by
      intro k hk
      exact sampleToInt16_quantized k (hks k hk).1 (hks k hk).2
    rw [List.map_congr_left h, List.map_id]
  have hdec : decode (createBlob (ks.map (fun k : ℤ => JSNum.fin ((k : ℚ) / 32768)))).data =
      ((ks.map int16ToBytes).flatten) := by
    show atobChars (btoaBytes _) = _
    rw [hmap]
    exact atob_btoa _ (flatten_int16ToBytes_lt ks)
  rw [hdec]
  have hint : bytesToInt16 ((ks.map int16ToBytes).flatten) = ks :=
    bytesToInt16_flatten ks hks
  have hlen : ((ks.map int16ToBytes).flatten).length % 2 = 0 := by
    rw [flatten_int16ToBytes_length]; omega
  unfold decodeAudioData
  rw [if_neg (by omega)]
  rw [hint]
  have hr1 : List.range 1 = [0] := rfl
  simp only [Nat.div_one, hr1, List.map_cons, List.map_nil, mul_one, add_zero,
    range_map_getD_div]

/-- Witness for C1: the round trip evaluated on a concrete quantized
sample list, at sample rate 24000. -/
theorem codec_roundtrip_witness :
    decodeAudioData
        (decode (createBlob (([0, 1, -1, 16384, -32768, 32767] : List ℤ).map
          (fun k : ℤ => JSNum.fin ((k : ℚ) / 32768)))).data) 24000 1 =
      .ok { numChannels := 1,
            frameCount := ([0, 1, -1, 16384, -32768, 32767] : List ℤ).length,
            sampleRate := 24000,
            channels := [([0, 1, -1, 16384, -32768, 32767] : List ℤ).map
              (fun k : ℤ => ((k : ℚ) / 32768))] } :=
  codec_roundtrip [0, 1, -1, 16384, -32768, 32767] (by decide) 24000

theorem jsTrunc_intCast (n : ℤ) : jsTrunc ((n : ℤ) : ℚ) = n := by
  unfold jsTrunc
  split_ifs <;> simp [Int.floor_intCast, Int.ceil_intCast]

/-- Claim C10: the encoder wraps instead of clamping.  `createBlob` sends
each sample through multiplication by 32768 followed by `ToInt16`
(truncation toward zero, then reduction modulo 2^16), with no
saturation: the in-range boundary sample 1.0 encodes to -32768 rather
than 32767, `NaN` encodes to 0, 1.5 wraps to -16384, -1.5 wraps to
16384, and 0.7 truncates to 22937. -/
theorem encode_wraps :
    sampleToInt16 (JSNum.fin 1) = -32768 ∧
    sampleToInt16 JSNum.nan = 0 ∧
    sampleToInt16 (JSNum.fin (3 / 2)) = -16384 ∧
    sampleToInt16 (JSNum.fin (-(3 / 2))) = 16384 ∧
    sampleToInt16 (JSNum.fin (7 / 10)) = 22937 ∧
    (createBlob [JSNum.fin 1, JSNum.nan, JSNum.fin (3 / 2), JSNum.fin (-(3 / 2)),
        JSNum.fin (7 / 10)]).data =
      btoaBytes ((([-32768, 0, -16384, 16384, 22937] : List ℤ).map int16ToBytes).flatten) := by
  have h1 : sampleToInt16 (JSNum.fin 1) = -32768 := by
    show toInt16 (jsTrunc ((1 : ℚ) * 32768)) = -32768
    rw [show ((1 : ℚ) * 32768) = ((32768 : ℤ) : ℚ) by norm_num, jsTrunc_intCast]
    decide
  have h2 : sampleToInt16 JSNum.nan = 0 := rfl
  have h3 : sampleToInt16 (JSNum.fin (3 / 2)) = -16384 := by
    show toInt16 (jsTrunc ((3 / 2 : ℚ) * 32768)) = -16384
    rw [show ((3 / 2 : ℚ) * 32768) = ((49152 : ℤ) : ℚ) by norm_num, jsTrunc_intCast]
    decide
  have h4 : sampleToInt16 (JSNum.fin (-(3 / 2))) = 16384 := by
    show toInt16 (jsTrunc ((-(3 / 2) : ℚ) * 32768)) = 16384
    rw [show ((-(3 / 2) : ℚ) * 32768) = ((-49152 : ℤ) : ℚ) by norm_num, jsTrunc_intCast]
    decide
  have h5 : sampleToInt16 (JSNum.fin (7 / 10)) = 22937 := by
    show toInt16 (jsTrunc ((7 / 10 : ℚ) * 32768)) = 22937
    have hfl : jsTrunc ((7 / 10 : ℚ) * 32768) = 22937 := by
      unfold jsTrunc
      rw [if_pos (by norm_num)]
      rw [Int.floor_eq_iff]
      norm_num
    rw [hfl]
    decide
  refine ⟨h1, h2, h3, h4, h5, ?_⟩
  simp only [createBlob, List.map_cons, List.map_nil, h1, h2, h3, h4, h5]

-- ### Relevance scorer and recommendation selector

/-- A content item as the recommendation logic sees it
(`Video` in src/types). -/
structure Video where
  id : ℕ
  title : String
  description : String
deriving DecidableEq

/-- The fixed stop list of `tokenize` (line 81). -/
def stopWords : List (List Char) := ["with", "this", "that", "from", "into"].map String.data

/-- The character class kept by `.replace(/[^\w\s]/g, '')` (line 77):
word characters (letters, digits, underscore) and whitespace survive,
everything else is removed. -/
def isWordOrSpace (c : Char) : Bool := c.isAlphanum || c == '_' || c.isWhitespace

/-- Character-level model of a JavaScript `split` on a separator
predicate: split at every matching character, keeping empty pieces.  The
source splits on the regexp `\s+` (line 78), which differs only in that
a run of separators yields one empty piece instead of several; every
empty piece is discarded by the length filter of `tokenize`, so the
resulting token lists agree. -/
def splitOnPred (p : Char → Bool) : List Char → List (List Char)
  | [] => [[]]
  | c :: cs =>
      if p c then [] :: splitOnPred p cs
      else
        match splitOnPred p cs with
        | [] => [[c]]
        | piece :: rest => (c :: piece) :: rest

/-- `tokenize` (lines 74-82): lowercase, strip non-word non-space
characters, split on whitespace, and drop tokens of length at most 3 or
in the stop list.  (The source lowercases with the Unicode-aware
JavaScript `toLowerCase`; `Char.toLower` agrees with it on the ASCII
text this component handles.) -/
def tokenize (text : String) : List (List Char) :=
  (splitOnPred Char.isWhitespace
      ((text.data.map Char.toLower).filter isWordOrSpace)).filter
    (fun w => decide (3 < w.length) && !(stopWords.contains w))

/-- `title.split(' ')[0]` (line 93): the first piece of the raw,
case-sensitive title when split on single spaces.  JavaScript `split`
always yields at least one piece, so index 0 is the head. -/
def firstWord (s : String) : List Char :=
  (splitOnPred (fun c => c == ' ') s.data).headD []

/-- `calculateRelevance` (lines 72-97): -1 when ids coincide; otherwise
the number of candidate tokens (counted with multiplicity) found in the
set of reference tokens, plus 2 when the raw titles share their first
space-delimited word. -/
def calculateRelevance (current candidate : Video) : ℤ :=
  if current.id = candidate.id then -1
  else
    let currentTokens := tokenize (current.title ++ " " ++ current.description)
    let candidateTokens := tokenize (candidate.title ++ " " ++ candidate.description)
    let base := candidateTokens.countP (fun t => currentTokens.contains t)
    ((if firstWord current.title = firstWord candidate.title then base + 2 else base : ℕ) : ℤ)

/-- Stable insertion of a scored item into a descending-sorted list: the
item goes after every earlier item of score greater than or equal to its
own.  `Array.prototype.sort` with comparator `(a, b) => b.score - a.score`
is required by ECMAScript to be a stable descending sort; the algorithm
itself is unspecified, so any stable descending sort models it. -/
def insertDesc (x : Video × ℤ) : List (Video × ℤ) → List (Video × ℤ)
  | [] => [x]
  | y :: ys => if y.2 < x.2 then x :: y :: ys else y :: insertDesc x ys

/-- Stable descending sort by score (insertion sort). -/
def sortDesc : List (Video × ℤ) → List (Video × ℤ)
  | [] => []
  | x :: xs => insertDesc x (sortDesc xs)

/-- The `upNext` / `moreVideos` computation (lines 130-140): drop the
reference item, score every remaining candidate against it, sort
descending by score (stable), and split into the top pick (`sorted[0]`,
absent when the list is empty) and the rest (`sorted.slice(1)`). -/
def select (video : Video) (allVideos : List Video) : Option Video × List Video :=
  let sorted := (sortDesc ((allVideos.filter (fun v => v.id ≠ video.id)).map
      (fun v => (v, calculateRelevance video v)))).map (fun item => item.1)
  (sorted.head?, sorted.drop 1)

/-- Claim C7: relevance identity and range.  `score(x, x) = -1` for every
item; the score of two items with distinct ids is a non-negative
integer; and `select` on a catalog holding only the reference item
returns no primary and an empty rest. -/
theorem relevance_identity_range :
    (∀ x : Video, calculateRelevance x x = -1) ∧
    (∀ a b : Video, a.id ≠ b.id → 0 ≤ calculateRelevance a b) ∧
    (∀ v : Video, select v [v] = (none, [])) := by
  refine ⟨fun x => by simp [calculateRelevance], fun a b h => ?_, fun v => ?_⟩
  · simp only [calculateRelevance, if_neg h]
    exact Int.natCast_nonneg _
  · simp [select, List.filter, sortDesc]

def vAlpha : Video := { id := 1, title := "alpha", description := "wolf wolf" }

def vBeta : Video := { id := 2, title := "beta", description := "wolf" }

/-- Witness for C7 at concrete items: identity sentinel, non-negative
cross score, and the singleton-catalog selection. -/
theorem relevance_identity_range_witness :
    calculateRelevance vAlpha vAlpha = -1 ∧ 0 ≤ calculateRelevance vAlpha vBeta ∧
      select vAlpha [vAlpha] = (none, []) :=
  ⟨relevance_identity_range.1 vAlpha,
   relevance_identity_range.2.1 vAlpha vBeta (by decide),
   relevance_identity_range.2.2 vAlpha⟩

/-- Claim C9: relevance asymmetry exists.  Candidate tokens are counted
with multiplicity while reference tokens are collapsed to a set, so some
pair of items with distinct ids scores differently in the two
directions. -/
theorem relevance_asymmetry :
    ∃ a b : Video, a.id ≠ b.id ∧ calculateRelevance a b ≠ calculateRelevance b a :=
  ⟨vAlpha, vBeta, by decide, by decide⟩

def vNeonDrift : Video :=
  { id := 1, title := "Neon Drift", description := "a racer chases a thief" }

def vNeonPulse : Video :=
  { id := 2, title := "Neon Pulse", description := "a detective chases a racer" }

def vQuietGarden : Video :=
  { id := 3, title := "Quiet Garden", description := "a calm afternoon" }

/-- Claim C8: the concrete relevance scenario.  With reference "Neon
Drift", the item "Neon Pulse" scores at least 4 (shared tokens "racer",
"chases", "neon" plus the first-word bonus) and strictly more than
"Quiet Garden", which scores 0; `select` returns "Neon Pulse" as primary
and `["Quiet Garden"]` as rest. -/
theorem relevance_scenario :
    4 ≤ calculateRelevance vNeonDrift vNeonPulse ∧
    calculateRelevance vNeonDrift vQuietGarden < calculateRelevance vNeonDrift vNeonPulse ∧
    calculateRelevance vNeonDrift vQuietGarden = 0 ∧
    select vNeonDrift [vNeonDrift, vNeonPulse, vQuietGarden] =
      (some vNeonPulse, [vQuietGarden]) := by decide

-- ### Session lifecycle and playback scheduler

/-- The mutable state of the component relevant to the live session: the
refs of lines 121-127 plus the React state flags, with observation
fields recording each release of an external resource (close / stop /
clearInterval calls) so that "released exactly once" is statable.
Boolean ref fields are `true` exactly when the corresponding
`useRef.current` is non-null; `sources` holds the identities of the
`AudioBufferSourceNode`s currently in `sourcesRef`, `nextSourceId` a
fresh identity supply, and `sourceStops` the log of `stop()` calls. -/
structure World where
  session : Bool
  videoInterval : Bool
  intervalClearCount : ℕ
  sources : List ℕ
  nextSourceId : ℕ
  sourceStops : List ℕ
  audioCtx : Bool
  audioCtxSuspended : Bool
  audioCtxCloseCount : ℕ
  inputCtx : Bool
  inputCtxCloseCount : ℕ
  stream : Bool
  trackStopCounts : List ℕ
  nextStartTime : ℚ
  connected : Bool
  isConnecting : Bool
  micActive : Bool
deriving DecidableEq

/-- `disconnect` (lines 149-181), translated statement by statement.
Each release is guarded by a null check exactly as in the source (the
unguarded `forEach` over the sources set is unconditional but wraps each
`stop()` in a try/catch, and stopping is modelled by logging the id), so
the function is total: no access can throw. -/
def disconnect (w : World) : World :=
  let w1 := { w with session := false }
  let w2 := if w1.videoInterval then
      { w1 with intervalClearCount := w1.intervalClearCount + 1, videoInterval := false }
    else w1
  let w3 := { w2 with sourceStops := w2.sourceStops ++ w2.sources, sources := [] }
  let w4 := if w3.audioCtx then
      { w3 with audioCtxCloseCount := w3.audioCtxCloseCount + 1, audioCtx := false }
    else w3
  let w5 := if w4.inputCtx then
      { w4 with inputCtxCloseCount := w4.inputCtxCloseCount + 1, inputCtx := false }
    else w4
  let w6 := if w5.stream then
      { w5 with trackStopCounts := w5.trackStopCounts.map (fun c => c + 1), stream := false }
    else w5
  { w6 with connected := false, isConnecting := false, micActive := false }

/-- The environment a `connect` attempt runs against: the output
context's clock value at creation time, whether microphone permission is
granted, and how many tracks the granted stream carries. -/
structure ConnectEnv where
  ctxTime : ℚ
  micGranted : Bool
  nTracks : ℕ

/-- `connect` (lines 183-316): no-op when already connected or
connecting; otherwise acquire the output context (recording its clock as
the initial scheduling cursor, line 194), then the microphone stream,
input context, session promise and frame timer.  Microphone denial takes
the catch path of lines 311-315: `setIsConnecting(false)` then a full
`disconnect()`.  The `onopen` callback that later sets
`connected`/`micActive` is asynchronous and not part of this call. -/
def connect (w : World) (env : ConnectEnv) : World :=
  if w.connected || w.isConnecting then w
  else
    let w1 := { w with isConnecting := true }
    let w2 := { w1 with audioCtx := true, audioCtxSuspended := false,
                        nextStartTime := env.ctxTime }
    if env.micGranted then
      { w2 with stream := true, trackStopCounts := List.replicate env.nTracks 0,
                inputCtx := true, session := true, videoInterval := true }
    else
      disconnect { w2 with isConnecting := false }

/-- One message from the remote session, as `onmessage` consumes it: an
optional inline audio payload (already base64-decoded to bytes here) and
the `interrupted` flag. -/
structure Message where
  audioData : Option (List ℕ)
  interrupted : Bool

/-- The start-time computation of the scheduler (line 241):
`Math.max(nextStartTimeRef.current, currentTime)`. -/
def scheduleStart (cursor currentTime : ℚ) : ℚ := max cursor currentTime

/-- The `try` block of the audio branch of `onmessage` (lines 224-252),
at clock reading `tSched`: resume a suspended output context (the
optional chaining of line 225 is null-safe), then decode and schedule.
With a null output context ref, `decodeAudioData` dereferences null at
`ctx.createBuffer` — a `TypeError`; an odd payload length makes the
`Int16Array` view throw a `RangeError`.  Either error is returned
together with the state mutated so far, and the caller's `catch`
swallows it.  On success the chunk (duration `(len/2)/24000`, one
channel at 24000 Hz) is scheduled at
`max(nextStartTime, currentTime)`, the cursor advances by its duration,
and the new source joins the set. -/
def tryAudio (w : World) (bytes : List ℕ) (tSched : ℚ) : World × Option JSError :=
  let w1 := if w.audioCtx && w.audioCtxSuspended then { w with audioCtxSuspended := false }
    else w
  if !w1.audioCtx then (w1, some .typeError)
  else if bytes.length % 2 ≠ 0 then (w1, some .rangeError)
  else
    ({ w1 with
        nextStartTime := scheduleStart w1.nextStartTime tSched + (bytes.length / 2 : ℕ) / 24000,
        sources := w1.sources ++ [w1.nextSourceId],
        nextSourceId := w1.nextSourceId + 1 }, none)

/-- The audio half of `onmessage`: nothing without an inline payload,
otherwise the `try` block with its error swallowed by the `catch` of
line 253. -/
def audioPhase (w : World) (msg : Message) (tSched : ℚ) : World :=
  match msg.audioData with
  | none => w
  | some bytes => (tryAudio w bytes tSched).1

/-- `onmessage` (lines 221-263) at clock readings `tSched` (when the
audio branch reads `currentTime`, line 240) and `tInt` (when the
interruption branch reads it, line 261).  The interruption branch
(lines 258-262) stops every source in the set, clears the set, and then
reads `audioContextRef.current.currentTime` with no null guard and
outside any try/catch: with a null ref that read throws an uncaught
`TypeError`. -/
def onmessage (w : World) (msg : Message) (tSched tInt : ℚ) : Except JSError World :=
  let w1 := audioPhase w msg tSched
  if msg.interrupted then
    let w2 := { w1 with sourceStops := w1.sourceStops ++ w1.sources, sources := [] }
    if w1.audioCtx then .ok { w2 with nextStartTime := tInt }
    else .error .typeError
  else .ok w1

/-- The scheduler run over a whole session: for each arriving chunk the
pair (clock reading at scheduling, buffer duration), producing for each
chunk the pair (start time, cursor after scheduling), with the cursor
threaded exactly as lines 240-243 do. -/
def runSchedule (cursor : ℚ) : List (ℚ × ℚ) → List (ℚ × ℚ)
  | [] => []
  | (t, d) :: rest =>
      (scheduleStart cursor t, scheduleStart cursor t + d) ::
      runSchedule (scheduleStart cursor t + d) rest

-- ### C2: scheduler monotonicity

theorem runSchedule_gapless :
    ∀ (chunks : List (ℚ × ℚ)) (cursor : ℚ) (i : ℕ), i + 1 < chunks.length →
      ((runSchedule cursor chunks).getD i (0, 0)).1 + (chunks.getD i (0, 0)).2 ≤
        ((runSchedule cursor chunks).getD (i + 1) (0, 0)).1
  | [], _, _, h => by simp at h
  | (t, d) :: rest, cursor, 0, h => by
      match rest, h with
      | (t2, d2) :: rs, _ =>
          simp only [runSchedule, List.getD_cons_zero, List.getD_cons_succ]
          exact le_max_left _ _
  | (t, d) :: rest, cursor, i + 1, h => by
      simp only [runSchedule, List.getD_cons_succ]
      exact runSchedule_gapless rest _ i (by simpa using h)

theorem runSchedule_ge_clock :
    ∀ (chunks : List (ℚ × ℚ)) (cursor : ℚ) (i : ℕ), i < chunks.length →
      (chunks.getD i (0, 0)).1 ≤ ((runSchedule cursor chunks).getD i (0, 0)).1
  | [], _, _, h => by simp at h
  | (t, d) :: rest, cursor, 0, _ => by
      simp only [runSchedule, List.getD_cons_zero]
      exact le_max_right _ _
  | (t, d) :: rest, cursor, i + 1, h => by
      simp only [runSchedule, List.getD_cons_succ]
      exact runSchedule_ge_clock rest _ i (by simpa using h)

theorem runSchedule_cursor_chain :
    ∀ (chunks : List (ℚ × ℚ)) (cursor : ℚ), (∀ c ∈ chunks, 0 ≤ c.2) →
      List.Chain' (fun a b : ℚ => a ≤ b)
        (cursor :: (runSchedule cursor chunks).map Prod.snd)
  | [], _, _ => List.chain'_singleton _
  | (t, d) :: rest, cursor, h => by
      simp only [runSchedule, List.map_cons]
      rw [List.chain'_cons]
      refine ⟨?_, runSchedule_cursor_chain rest _ (fun c hc => h c (by simp [hc]))⟩
      have h1 : cursor ≤ scheduleStart cursor t := le_max_left _ _
      have h2 : (0 : ℚ) ≤ d := h (t, d) (by simp)
      linarith

/-- Claim C2: scheduler monotonicity.  For any session (any initial
cursor) and any sequence of chunk arrivals with non-negative durations
(every decoded buffer's duration is `frameCount / 24000 ≥ 0`) and
monotonically increasing clock readings, chunk n+1's computed start time
is at least chunk n's start time plus chunk n's duration, every start
time is at least the clock reading at its scheduling, and the cursor is
monotonically non-decreasing across the session. -/
theorem scheduler_monotone (cursor0 : ℚ) (chunks : List (ℚ × ℚ))
    (hdur : ∀ c ∈ chunks, 0 ≤ c.2)
    (hclock : List.Chain' (fun a b : ℚ × ℚ => a.1 ≤ b.1) chunks) :
    (∀ i, i + 1 < chunks.length →
        ((runSchedule cursor0 chunks).getD i (0, 0)).1 + (chunks.getD i (0, 0)).2 ≤
          ((runSchedule cursor0 chunks).getD (i + 1) (0, 0)).1) ∧
    (∀ i, i < chunks.length →
        (chunks.getD i (0, 0)).1 ≤ ((runSchedule cursor0 chunks).getD i (0, 0)).1) ∧
    List.Chain' (fun a b : ℚ => a ≤ b)
      (cursor0 :: (runSchedule cursor0 chunks).map Prod.snd) :=
  ⟨fun i h => runSchedule_gapless chunks cursor0 i h,
   fun i h => runSchedule_ge_clock chunks cursor0 i h,
   runSchedule_cursor_chain chunks cursor0 hdur⟩

/-- Witness for C2: both hypotheses discharged on a concrete two-chunk
session, concluding the concrete gapless inequality for the first pair. -/
theorem scheduler_monotone_witness :
    ((runSchedule 0 [((0 : ℚ), (1 : ℚ)), (2, 1 / 2)]).getD 0 (0, 0)).1 +
        (([((0 : ℚ), (1 : ℚ)), (2, 1 / 2)]).getD 0 (0, 0)).2 ≤
      ((runSchedule 0 [((0 : ℚ), (1 : ℚ)), (2, 1 / 2)]).getD 1 (0, 0)).1 :=
  (scheduler_monotone 0 [((0 : ℚ), (1 : ℚ)), (2, 1 / 2)]
    (by intro c hc; fin_cases hc <;> norm_num)
    (by norm_num [List.chain'_cons])).1 0 (by simp)

-- ### C3-C6: interruption, cancellation, teardown, connect guard

theorem tryAudio_audioCtx (w : World) (bytes : List ℕ) (t : ℚ) :
    ((tryAudio w bytes t).1).audioCtx = w.audioCtx := by
  simp only [tryAudio]
  split_ifs <;> simp_all

theorem audioPhase_audioCtx (w : World) (msg : Message) (t : ℚ) :
    (audioPhase w msg t).audioCtx = w.audioCtx := by
  unfold audioPhase
  cases msg.audioData with
  | none => rfl
  | some bytes => exact tryAudio_audioCtx w bytes t

/-- Claim C3: interruption clears future audio.  When a message carries
the interrupted flag and the output context ref is live, `onmessage`
succeeds; afterwards every source that was in the active set at the
moment of interruption has received `stop()`, the set is empty, the
cursor equals the output clock's reading at the interruption, and hence
the start time the scheduler would compute for any next chunk
(`max(cursor, t')`) is no earlier than that reading. -/
theorem interruption_clears (w : World) (msg : Message) (tSched tInt : ℚ)
    (hmsg : msg.interrupted = true) (hctx : w.audioCtx = true) :
    ∃ w', onmessage w msg tSched tInt = .ok w' ∧
      w'.sources = [] ∧
      w'.nextStartTime = tInt ∧
      (∀ s ∈ (audioPhase w msg tSched).sources, s ∈ w'.sourceStops) ∧
      (∀ t' : ℚ, tInt ≤ scheduleStart w'.nextStartTime t') := by
  have hctx1 : (audioPhase w msg tSched).audioCtx = true := by
    rw [audioPhase_audioCtx]; exact hctx
  simp only [onmessage, hmsg, if_true]
  rw [if_pos hctx1]
  refine ⟨_, rfl, rfl, rfl, fun s hs => ?_, fun t' => ?_⟩
  · simp only [List.mem_append]
    exact Or.inr hs
  · exact le_max_left _ _

/-- A fully established session's state: all refs live, one scheduled
source, two microphone tracks, nothing released yet. -/
def estW : World :=
  { session := true, videoInterval := true, intervalClearCount := 0,
    sources := [7], nextSourceId := 8, sourceStops := [],
    audioCtx := true, audioCtxSuspended := false, audioCtxCloseCount := 0,
    inputCtx := true, inputCtxCloseCount := 0,
    stream := true, trackStopCounts := [0, 0], nextStartTime := 0,
    connected := true, isConnecting := false, micActive := true }

/-- Witness for C3: a concrete interrupted message against the
established state, with the clock at 7 on interruption. -/
theorem interruption_clears_witness :
    (onmessage estW { audioData := some [1, 2], interrupted := true } 5 7).map
        World.sources = .ok [] ∧
    (onmessage estW { audioData := some [1, 2], interrupted := true } 5 7).map
        World.nextStartTime = .ok 7 := by
  obtain ⟨w', hw, hs, hn, -, -⟩ :=
    interruption_clears estW { audioData := some [1, 2], interrupted := true } 5 7 rfl rfl
  rw [hw]
  simp [Except.map, hs, hn]

/-- Claim C4 (refuting evaluation): late callbacks after `disconnect` do
NOT detect the cleared session.  `onmessage` never consults the session
ref; after a disconnect a message carrying the interrupted flag reaches
`nextStartTimeRef.current = audioContextRef.current.currentTime`
(line 261) with a null ref, outside any try/catch, and the uncaught
`TypeError` escapes the handler.  (A late audio-only message does have
its `TypeError` swallowed by the catch of line 253, dropping the chunk
with the state unchanged — second conjunct.) -/
theorem late_interruption_bug :
    onmessage (disconnect estW) { audioData := none, interrupted := true } 0 0 =
      .error .typeError ∧
    onmessage (disconnect estW) { audioData := some [1, 2], interrupted := false } 0 0 =
      .ok (disconnect estW) :=
  ⟨rfl, rfl⟩

/-- All resource refs and state flags are down. -/
def ResourcesCleared (w : World) : Prop :=
  w.session = false ∧ w.videoInterval = false ∧ w.sources = [] ∧
  w.audioCtx = false ∧ w.inputCtx = false ∧ w.stream = false ∧
  w.connected = false ∧ w.isConnecting = false ∧ w.micActive = false

/-- A fully established session: every resource ref live and none of the
release observations incremented yet. -/
def Established (w : World) : Prop :=
  w.session = true ∧ w.videoInterval = true ∧ w.audioCtx = true ∧
  w.inputCtx = true ∧ w.stream = true ∧ w.intervalClearCount = 0 ∧
  w.audioCtxCloseCount = 0 ∧ w.inputCtxCloseCount = 0 ∧
  (∀ c ∈ w.trackStopCounts, c = 0)

/-- Normal form of `disconnect`: the sequential guarded releases amount
to one record update. -/
theorem disconnect_eq (w : World) :
    disconnect w = { w with
      session := false,
      videoInterval := false,
      intervalClearCount := w.intervalClearCount + (if w.videoInterval then 1 else 0),
      sourceStops := w.sourceStops ++ w.sources,
      sources := [],
      audioCtx := false,
      audioCtxCloseCount := w.audioCtxCloseCount + (if w.audioCtx then 1 else 0),
      inputCtx := false,
      inputCtxCloseCount := w.inputCtxCloseCount + (if w.inputCtx then 1 else 0),
      stream := false,
      trackStopCounts := if w.stream then w.trackStopCounts.map (fun c => c + 1)
        else w.trackStopCounts,
      connected := false, isConnecting := false, micActive := false } := by
  obtain ⟨ses, vi, icc, src, nsi, ss, ac, acs, accc, ic, iccc, st, tsc, nst, co, isc, mic⟩ := w
  cases vi <;> cases ac <;> cases ic <;> cases st <;> rfl

/-- Claim C5: disconnect idempotence and teardown completeness.
`disconnect` is total on any state; running it twice equals running it
once (so the second call changes nothing and in particular releases
nothing twice); every run leaves all resource flags cleared (including
from Idle, where it is a pure flag reset); and after a fully established
session one run clears the timer, closes both contexts and stops every
microphone track exactly once, and every formerly active source has
received `stop()`. -/
theorem disconnect_teardown :
    (∀ w : World, disconnect (disconnect w) = disconnect w) ∧
    (∀ w : World, ResourcesCleared (disconnect w)) ∧
    (∀ w : World, Established w →
      (disconnect w).intervalClearCount = 1 ∧
      (disconnect w).audioCtxCloseCount = 1 ∧
      (disconnect w).inputCtxCloseCount = 1 ∧
      (∀ c ∈ (disconnect w).trackStopCounts, c = 1) ∧
      (∀ s ∈ w.sources, s ∈ (disconnect w).sourceStops)) := by
  refine ⟨fun w => ?_, fun w => ?_, fun w hw => ?_⟩
  · rw [disconnect_eq w, disconnect_eq]
    simp
  · rw [disconnect_eq]
    simp [ResourcesCleared]
  · obtain ⟨h1, h2, h3, h4, h5, h6, h7, h8, h9⟩ := hw
    rw [disconnect_eq]
    refine ⟨by simp [h2, h6], by simp [h3, h7], by simp [h4, h8], ?_, ?_⟩
    · intro c hc
      simp only [h5, if_true, List.mem_map] at hc
      obtain ⟨c0, hc0, rfl⟩ := hc
      rw [h9 c0 hc0]
    · intro s hs
      simp only [List.mem_append]
      exact Or.inr hs

/-- Witness for C5: the established-state hypothesis discharged at the
concrete state, with the close count and the track stops observed. -/
theorem disconnect_teardown_witness :
    Established estW ∧ (disconnect estW).audioCtxCloseCount = 1 ∧
      (∀ c ∈ (disconnect estW).trackStopCounts, c = 1) :=
  ⟨by unfold Established; decide, (disconnect_teardown.2.2 estW (by unfold Established; decide)).2.1,
    (disconnect_teardown.2.2 estW (by unfold Established; decide)).2.2.2.1⟩

/-- Claim C6: connect guard.  Whenever the connection flag is Active
(`connected`) or `Connecting`, `connect` returns the state unchanged —
it acquires no resource and mutates nothing — so a live session is never
doubled. -/
theorem connect_guard (w : World) (env : ConnectEnv)
    (h : w.connected = true ∨ w.isConnecting = true) :
    connect w env = w := by
  unfold connect
  have hb : (w.connected || w.isConnecting) = true := by
    rcases h with h | h <;> simp [h]
  rw [if_pos hb]

/-- Witness for C6: `connect` against the established (Active) state is
the identity. -/
theorem connect_guard_witness :
    connect estW { ctxTime := 0, micGranted := true, nTracks := 2 } = estW :=
  connect_guard estW { ctxTime := 0, micGranted := true, nTracks := 2 } (Or.inl rfl)
